import Mathlib

/-!
# Verification of the specfem2d (Kokkos) computational core

A shallow embedding of the element-local geometry (Jacobian) module, the
gradient kernel, the stress-accumulation kernel and the mesh-database
constructor of the repository, together with proofs of the spec's claims
about them.

`type_real` is modelled by the rational numbers: every arithmetic identity
proved here is exact, hence holds in particular "within floating tolerance".

The repository files ship only the declarations (headers) of the jacobian
and mathematical-operator functions; where a body is absent from the
sources, the corresponding Lean definition is modelled from the spec and
its doc comment says so.
-/

/-- The scalar type of the code (`type_real`), modelled by `ℚ` so that all
arithmetic is exact and every definition is executable. -/
abbrev type_real : Type := ℚ

namespace jacobian

/-- Modelled from the spec: `jacobian::compute_jacobian(xxi, zxi, xgamma,
zgamma)` (declared in the header; its body is not among the source files).
The spec gives `det = (dx/dxi)(dz/dgamma) - (dx/dgamma)(dz/dxi)`. -/
def compute_jacobian (xxi zxi xgamma zgamma : type_real) : type_real :=
  xxi * zgamma - xgamma * zxi

/-- Modelled from the spec: the 4-node bilinear shape functions of the
reference square `[-1,1]^2` used by `compute_locations` when it is handed a
raw `(xi, gamma)` point (`define_shape_functions` is not among the source
files).  Control nodes are ordered counterclockwise from `(-1,-1)`. -/
def shape_functions (xi gamma : type_real) : ℕ → type_real
  | 0 => (1 - xi) * (1 - gamma) / 4
  | 1 => (1 + xi) * (1 - gamma) / 4
  | 2 => (1 + xi) * (1 + gamma) / 4
  | 3 => (1 - xi) * (1 + gamma) / 4
  | _ => 0

/-- Modelled from the spec: the derivatives of the 4-node bilinear shape
functions; row `0` holds `d/dxi`, row `1` holds `d/dgamma` (the
`dershape2D` matrix of the header). -/
def dershape_functions (xi gamma : type_real) : ℕ → ℕ → type_real
  | 0, 0 => -(1 - gamma) / 4
  | 0, 1 => (1 - gamma) / 4
  | 0, 2 => (1 + gamma) / 4
  | 0, 3 => -(1 + gamma) / 4
  | 1, 0 => -(1 - xi) / 4
  | 1, 1 => -(1 + xi) / 4
  | 1, 2 => (1 + xi) / 4
  | 1, 3 => (1 - xi) / 4
  | _, _ => 0

/-- Modelled from the spec: the `compute_locations` overload that takes the
precomputed shape-function vector `shape2D` and interpolates the control
nodes `coorg` (`coorg 0 a` is `x_a`, `coorg 1 a` is `z_a`). -/
def compute_locations_shape (coorg : ℕ → ℕ → type_real) (ngnod : ℕ)
    (shape2D : ℕ → type_real) : type_real × type_real :=
  (∑ a ∈ Finset.range ngnod, shape2D a * coorg 0 a,
   ∑ a ∈ Finset.range ngnod, shape2D a * coorg 1 a)

/-- Modelled from the spec: the `compute_locations` overload that takes a raw
`(xi, gamma)` point: it evaluates the shape functions at the point and then
interpolates the control nodes. -/
def compute_locations (coorg : ℕ → ℕ → type_real) (ngnod : ℕ)
    (xi gamma : type_real) : type_real × type_real :=
  (∑ a ∈ Finset.range ngnod, shape_functions xi gamma a * coorg 0 a,
   ∑ a ∈ Finset.range ngnod, shape_functions xi gamma a * coorg 1 a)

/-- Modelled from the spec: the `compute_partial_derivatives` overload that
takes the precomputed shape-function derivative matrix `dershape2D`; returns
`(dx/dxi, dx/dgamma, dz/dxi, dz/dgamma)` as the header documents. -/
def compute_partial_derivatives_dershape (coorg : ℕ → ℕ → type_real)
    (ngnod : ℕ) (dershape2D : ℕ → ℕ → type_real) :
    type_real × type_real × type_real × type_real :=
  (∑ a ∈ Finset.range ngnod, dershape2D 0 a * coorg 0 a,
   ∑ a ∈ Finset.range ngnod, dershape2D 1 a * coorg 0 a,
   ∑ a ∈ Finset.range ngnod, dershape2D 0 a * coorg 1 a,
   ∑ a ∈ Finset.range ngnod, dershape2D 1 a * coorg 1 a)

/-- Modelled from the spec: the `compute_partial_derivatives` overload that
takes a raw `(xi, gamma)` point. -/
def compute_partial_derivatives (coorg : ℕ → ℕ → type_real) (ngnod : ℕ)
    (xi gamma : type_real) : type_real × type_real × type_real × type_real :=
  (∑ a ∈ Finset.range ngnod, dershape_functions xi gamma 0 a * coorg 0 a,
   ∑ a ∈ Finset.range ngnod, dershape_functions xi gamma 1 a * coorg 0 a,
   ∑ a ∈ Finset.range ngnod, dershape_functions xi gamma 0 a * coorg 1 a,
   ∑ a ∈ Finset.range ngnod, dershape_functions xi gamma 1 a * coorg 1 a)

/-- Modelled from the spec: the `compute_jacobian` overload taking a raw
`(xi, gamma)` point: partial derivatives of the mapping there, then the
determinant. -/
def compute_jacobian_at (coorg : ℕ → ℕ → type_real) (ngnod : ℕ)
    (xi gamma : type_real) : type_real :=
  let pd := compute_partial_derivatives coorg ngnod xi gamma
  compute_jacobian pd.1 pd.2.2.1 pd.2.1 pd.2.2.2

/-- Modelled from the spec: the `compute_jacobian` overload taking the
precomputed shape-function derivative matrix. -/
def compute_jacobian_dershape (coorg : ℕ → ℕ → type_real) (ngnod : ℕ)
    (dershape2D : ℕ → ℕ → type_real) : type_real :=
  let pd := compute_partial_derivatives_dershape coorg ngnod dershape2D
  compute_jacobian pd.1 pd.2.2.1 pd.2.1 pd.2.2.2

/-- The control-node table of an axis-aligned rectangular element with
lower-left corner `(x0, z0)`, width `w` and height `h`, nodes ordered
counterclockwise. -/
def rect_coorg (x0 z0 w h : type_real) : ℕ → ℕ → type_real
  | 0, 0 => x0
  | 0, 1 => x0 + w
  | 0, 2 => x0 + w
  | 0, 3 => x0
  | 1, 0 => z0
  | 1, 1 => z0
  | 1, 2 => z0 + h
  | 1, 3 => z0 + h
  | _, _ => 0

end jacobian

namespace specfem

namespace mathematical_operators

/-- Modelled from the spec: the generic (runtime-sized)
`compute_gradients_2D`: only its declaration is among the source files.  At
quadrature point `(iz, ix)` of element `ispec` it forms the reference-space
derivatives of both field components by a tensor contraction over the
basis-derivative tables (`s_hprime_xx ix l` against `field iz l` along `xi`,
`s_hprime_zz iz l` against `field l ix` along `gamma`) and converts them to
physical derivatives with the cached inverted geometric factors.  Returns
`(duxdx, duxdz, duzdx, duzdz)` at that point; the number of quadrature
points per dimension `ngll` is a runtime value. -/
def compute_gradients_2D (ngll ispec : ℕ)
    (xix xiz gammax gammaz : ℕ → ℕ → ℕ → type_real)
    (s_hprime_xx s_hprime_zz field_x field_z : ℕ → ℕ → type_real)
    (iz ix : ℕ) : type_real × type_real × type_real × type_real :=
  let duxdxi := ∑ l ∈ Finset.range ngll, s_hprime_xx ix l * field_x iz l
  let duzdxi := ∑ l ∈ Finset.range ngll, s_hprime_xx ix l * field_z iz l
  let duxdga := ∑ l ∈ Finset.range ngll, s_hprime_zz iz l * field_x l ix
  let duzdga := ∑ l ∈ Finset.range ngll, s_hprime_zz iz l * field_z l ix
  (xix ispec iz ix * duxdxi + gammax ispec iz ix * duxdga,
   xiz ispec iz ix * duxdxi + gammaz ispec iz ix * duxdga,
   xix ispec iz ix * duzdxi + gammax ispec iz ix * duzdga,
   xiz ispec iz ix * duzdxi + gammaz ispec iz ix * duzdga)

/-- The accumulator of the specialized kernel's unrolled contraction loop:
`loop_sum g n = g 0 + g 1 + ... + g (n-1)`, accumulated left to right as the
unrolled loop does. -/
def loop_sum (g : ℕ → type_real) : ℕ → type_real
  | 0 => 0
  | l + 1 => loop_sum g l + g l

/-- Modelled from the spec: the compile-time-specialized
`compute_gradients_2D<NGLL>`: only its declaration is among the source
files.  It is handed the flattened quadrature-point index `xz`, decodes
`ix = xz % NGLL`, `iz = xz / NGLL`, runs the same two contractions as the
generic kernel as fully unrolled accumulation loops of static length
`NGLL`, and returns the four physical derivatives
`(duxdxl, duxdzl, duzdxl, duzdzl)` for that point. -/
def compute_gradients_2D_ngll (NGLL : ℕ) (xz ispec : ℕ)
    (xix xiz gammax gammaz : ℕ → ℕ → ℕ → type_real)
    (s_hprime_xx s_hprime_zz field_x field_z : ℕ → ℕ → type_real) :
    type_real × type_real × type_real × type_real :=
  let ix := xz % NGLL
  let iz := xz / NGLL
  let duxdxi := loop_sum (fun l => s_hprime_xx ix l * field_x iz l) NGLL
  let duzdxi := loop_sum (fun l => s_hprime_xx ix l * field_z iz l) NGLL
  let duxdga := loop_sum (fun l => s_hprime_zz iz l * field_x l ix) NGLL
  let duzdga := loop_sum (fun l => s_hprime_zz iz l * field_z l ix) NGLL
  (xix ispec iz ix * duxdxi + gammax ispec iz ix * duxdga,
   xiz ispec iz ix * duxdxi + gammaz ispec iz ix * duxdga,
   xix ispec iz ix * duzdxi + gammax ispec iz ix * duzdga,
   xiz ispec iz ix * duzdxi + gammaz ispec iz ix * duzdga)

/-- The arguments of one `add_contributions` invocation for one element:
the quadrature weights, the weight-premultiplied derivative matrices, the
element's global-numbering scratch view and its four stress integrands.
Views are modelled as index functions `(iz, ix) ↦ value`. -/
structure ContribArgs where
  ngll : ℕ
  wxgll : ℕ → type_real
  wzgll : ℕ → type_real
  s_hprimewgll_xx : ℕ → ℕ → type_real
  s_hprimewgll_zz : ℕ → ℕ → type_real
  s_iglob : ℕ → ℕ → ℕ
  stress_integrand_1 : ℕ → ℕ → type_real
  stress_integrand_2 : ℕ → ℕ → type_real
  stress_integrand_3 : ℕ → ℕ → type_real
  stress_integrand_4 : ℕ → ℕ → type_real

/-- Modelled from the spec: the weak-form nodal force that one quadrature
point `(iz, ix)` scatter-adds into the global acceleration array: for each
component, a contraction along `xi` over the weighted derivative matrix and
stress integrands 1 (x) and 2 (z), a contraction along `gamma` over
integrands 3 (x) and 4 (z), the two partial results weighted and summed. -/
def point_contribution (A : ContribArgs) (iz ix : ℕ) : type_real × type_real :=
  let tempx1 := ∑ l ∈ Finset.range A.ngll, A.s_hprimewgll_xx l ix * A.stress_integrand_1 iz l
  let tempz1 := ∑ l ∈ Finset.range A.ngll, A.s_hprimewgll_xx l ix * A.stress_integrand_2 iz l
  let tempx3 := ∑ l ∈ Finset.range A.ngll, A.s_hprimewgll_zz l iz * A.stress_integrand_3 l ix
  let tempz3 := ∑ l ∈ Finset.range A.ngll, A.s_hprimewgll_zz l iz * A.stress_integrand_4 l ix
  (-(A.wzgll iz * tempx1 + A.wxgll ix * tempx3),
   -(A.wzgll iz * tempz1 + A.wxgll ix * tempz3))

/-- The element's quadrature points `(iz, ix)` in the order the kernel walks
them. -/
def elem_points (ngll : ℕ) : List (ℕ × ℕ) :=
  (List.range ngll).flatMap fun iz => (List.range ngll).map fun ix => (iz, ix)

/-- Modelled from the spec: `add_contributions`: only its declaration is
among the source files.  For every quadrature point of the element it
scatter-adds `point_contribution` into the global acceleration array
`field_dot_dot` (modelled as `iglob ↦ (x-component, z-component)`) at the
global index `s_iglob iz ix`; nothing else is read from or written to
`field_dot_dot`. -/
def add_contributions (A : ContribArgs) (field_dot_dot : ℕ → type_real × type_real) :
    ℕ → type_real × type_real :=
  (elem_points A.ngll).foldl
    (fun g p => fun n =>
      if n = A.s_iglob p.1 p.2 then g n + point_contribution A p.1 p.2 else g n)
    field_dot_dot

/-- The state visible to one `add_contributions` call: its const inputs and
the global acceleration array it updates. -/
structure KernelState where
  args : ContribArgs
  field_dot_dot : ℕ → type_real × type_real

/-- Modelled from the spec: `add_contributions` as a state transformer: the
call leaves every input argument as it was and replaces the global
acceleration array by the accumulated one. -/
def add_contributions_state (s : KernelState) : KernelState :=
  { s with field_dot_dot := add_contributions s.args s.field_dot_dot }

/-- The `xi`-direction tensor contraction of a derivative table `hp` against
a nodal value table `v` at point `(iz, ix)`: the reference-space
`xi`-derivative the gradient kernel forms. -/
def dxi_contraction (ngll : ℕ) (hp v : ℕ → ℕ → type_real) (iz ix : ℕ) : type_real :=
  ∑ l ∈ Finset.range ngll, hp ix l * v iz l

/-- The `gamma`-direction tensor contraction of a derivative table `hp`
against a nodal value table `v` at point `(iz, ix)`. -/
def dgamma_contraction (ngll : ℕ) (hp v : ℕ → ℕ → type_real) (iz ix : ℕ) : type_real :=
  ∑ l ∈ Finset.range ngll, hp iz l * v l ix

/-- The Jacobian determinant of the discrete mapping at point `(iz, ix)`:
`x`/`z` are the physical coordinates of the element's quadrature points and
`hpx`/`hpz` the basis-derivative tables that differentiate them. -/
def discrete_jacobian (ngll : ℕ) (hpx hpz x z : ℕ → ℕ → type_real) (iz ix : ℕ) : type_real :=
  dxi_contraction ngll hpx x iz ix * dgamma_contraction ngll hpz z iz ix -
    dgamma_contraction ngll hpz x iz ix * dxi_contraction ngll hpx z iz ix

/-- The inverted geometric factor `xi_x = (dz/dgamma) / det` of the
geometric factor table (spec: inverses of the mapping derivatives,
computed once at mesh setup). -/
def xix_factor (ngll : ℕ) (hpx hpz x z : ℕ → ℕ → type_real) (iz ix : ℕ) : type_real :=
  dgamma_contraction ngll hpz z iz ix / discrete_jacobian ngll hpx hpz x z iz ix

/-- The inverted geometric factor `xi_z = -(dx/dgamma) / det`. -/
def xiz_factor (ngll : ℕ) (hpx hpz x z : ℕ → ℕ → type_real) (iz ix : ℕ) : type_real :=
  -dgamma_contraction ngll hpz x iz ix / discrete_jacobian ngll hpx hpz x z iz ix

/-- The inverted geometric factor `gamma_x = -(dz/dxi) / det`. -/
def gammax_factor (ngll : ℕ) (hpx hpz x z : ℕ → ℕ → type_real) (iz ix : ℕ) : type_real :=
  -dxi_contraction ngll hpx z iz ix / discrete_jacobian ngll hpx hpz x z iz ix

/-- The inverted geometric factor `gamma_z = (dx/dxi) / det`. -/
def gammaz_factor (ngll : ℕ) (hpx hpz x z : ℕ → ℕ → type_real) (iz ix : ℕ) : type_real :=
  dxi_contraction ngll hpx x iz ix / discrete_jacobian ngll hpx hpz x z iz ix

end mathematical_operators

/-- The Jacobian determinant of a `(dx/dxi, dx/dgamma, dz/dxi, dz/dgamma)`
quadruple, in the tuple order `compute_partial_derivatives` returns. -/
def jacobian_of (pd : type_real × type_real × type_real × type_real) : type_real :=
  jacobian.compute_jacobian pd.1 pd.2.2.1 pd.2.1 pd.2.2.2

/-- The fatal message of the construction-time geometry check. -/
def jacobian_fatal_msg : String :=
  "Fatal geometry error: non-positive Jacobian determinant"

/-- Modelled from the spec: the mesh-setup assembly of the per-element,
per-quadrature-point Jacobian table (this construction code is not among
the source files).  `pd e iz ix` is the partial-derivative quadruple at
quadrature point `(iz, ix)` of element `e`; if `compute_jacobian` is
non-positive at any point of any element, assembly aborts at once with the
fatal geometry error, otherwise the table stores the computed values
unmodified (no clamping). -/
def assemble_jacobian_table (nspec ngll : ℕ)
    (pd : ℕ → ℕ → ℕ → type_real × type_real × type_real × type_real) :
    Except String (ℕ → ℕ → ℕ → type_real) :=
  if _h : ∀ e ∈ Finset.range nspec, ∀ iz ∈ Finset.range ngll, ∀ ix ∈ Finset.range ngll,
      0 < jacobian_of (pd e iz ix)
  then .ok fun e iz ix => jacobian_of (pd e iz ix)
  else .error jacobian_fatal_msg

/-- The thirteen records of the binary mesh database, in the order the
constructor in `src/src/mesh.cpp` reads them. -/
inductive MeshRecord where
  | header
  | coorg
  | properties
  | attenuation
  | material_properties
  | material_indices
  | interfaces
  | absorbing_boundaries
  | forcing_boundaries
  | free_surfaces
  | coupled_boundaries
  | tangential_nodes
  | axial_nodes
deriving DecidableEq

/-- The fixed record order of the constructor: the sequence of reads in
`specfem::mesh::mesh` (`src/src/mesh.cpp`, lines 29-149). -/
def record_order : List MeshRecord :=
  [.header, .coorg, .properties, .attenuation, .material_properties,
   .material_indices, .interfaces, .absorbing_boundaries, .forcing_boundaries,
   .free_surfaces, .coupled_boundaries, .tangential_nodes, .axial_nodes]

/-- A family of record readers: the external parsing routines the
constructor calls, one per record kind.  A reader consumes a prefix of the
byte stream and returns the remainder, or fails. -/
def Readers : Type :=
  MeshRecord → List ℕ → Except String (List ℕ)

/-- The constructor's read loop: each record of `rs` is read in order by
its reader; the first failure propagates (each `try { ... } catch { throw; }`
block in `mesh.cpp` rethrows). -/
def read_records (readers : Readers) : List MeshRecord → List ℕ → Except String (List ℕ)
  | [], s => .ok s
  | r :: rs, s =>
    match readers r s with
    | .error e => .error e
    | .ok rest => read_records readers rs rest

/-- The message of the open failure in `mesh.cpp`, line 26. -/
def open_fail_msg : String := "Could not open database file"

/-- The message of the completeness check in `mesh.cpp`, lines 152-155 (the
source text uses an apostrophe; paraphrased here). -/
def not_fully_read_msg : String :=
  "The Database file was not fully read. Is there anything written after axial elements?"

/-- The completeness check of `mesh.cpp`, line 152:
`if (stream.get() && !stream.eof()) throw ...`.  On an exhausted stream,
`get()` returns `EOF` and sets the eof bit, so the conjunction is false; on
a remaining byte `c`, `get()` returns `c`, the eof bit stays clear, and the
constructor throws exactly when `c` is non-zero (a leading NUL byte makes
`get()` return `0` and the conjunction short-circuit). -/
def stream_fully_read_check (s : List ℕ) : Except String Unit :=
  match s with
  | [] => .ok ()
  | c :: _ => if c ≠ 0 then .error not_fully_read_msg else .ok ()

/-- The mesh constructor of `src/src/mesh.cpp`: open the file (`none`
models an open failure), read the thirteen records in their fixed order
with the external readers, then run the completeness check.  On success it
returns the list of records consumed; any failure propagates as the
terminal error, producing no mesh. -/
def mesh_construct (openResult : Option (List ℕ)) (readers : Readers) :
    Except String (List MeshRecord) :=
  match openResult with
  | none => .error open_fail_msg
  | some s =>
    match read_records readers record_order s with
    | .error e => .error e
    | .ok rest =>
      match stream_fully_read_check rest with
      | .error e => .error e
      | .ok _ => .ok record_order

/-- Readers that each consume exactly one byte of the stream and fail on an
exhausted stream: a concrete well-formed family used as a test input. -/
def one_byte_readers : Readers := fun _ s =>
  match s with
  | [] => .error "read past end of database stream"
  | _ :: rest => .ok rest

namespace mathematical_operators

/-- Test fixture: the exact basis-derivative table of a 2-point grid on
`[-1, 1]` (the derivative of the two linear Lagrange polynomials is
constant `-1/2` and `1/2`); its rows sum to zero. -/
def hprime_lin : ℕ → ℕ → type_real := fun _ l =>
  if l = 0 then -(1 / 2) else if l = 1 then 1 / 2 else 0

/-- Test fixture: the physical `x`-coordinates of the 2x2 reference-square
grid, `x = xi`. -/
def coord_xi : ℕ → ℕ → type_real := fun _ j =>
  if j = 0 then -1 else if j = 1 then 1 else 0

/-- Test fixture: the physical `z`-coordinates of the 2x2 reference-square
grid, `z = gamma`. -/
def coord_ga : ℕ → ℕ → type_real := fun i _ =>
  if i = 0 then -1 else if i = 1 then 1 else 0

/-- Test fixture: a one-point element `A` whose single quadrature point
scatter-adds into global index `0`. -/
def cargsA : ContribArgs where
  ngll := 1
  wxgll := fun _ => 1
  wzgll := fun _ => 1
  s_hprimewgll_xx := fun _ _ => 1
  s_hprimewgll_zz := fun _ _ => 1
  s_iglob := fun _ _ => 0
  stress_integrand_1 := fun _ _ => 2
  stress_integrand_2 := fun _ _ => 3
  stress_integrand_3 := fun _ _ => 5
  stress_integrand_4 := fun _ _ => 7

/-- Test fixture: a one-point element `B` that shares global index `0`
with element `A` but carries different integrands. -/
def cargsB : ContribArgs where
  ngll := 1
  wxgll := fun _ => 2
  wzgll := fun _ => 3
  s_hprimewgll_xx := fun _ _ => 1
  s_hprimewgll_zz := fun _ _ => 1
  s_iglob := fun _ _ => 0
  stress_integrand_1 := fun _ _ => 11
  stress_integrand_2 := fun _ _ => 13
  stress_integrand_3 := fun _ _ => 17
  stress_integrand_4 := fun _ _ => 19

/-- Test fixture: the zero global acceleration array. -/
def fdd0 : ℕ → type_real × type_real := fun _ => (0, 0)

end mathematical_operators

end specfem

/-! ## Helper lemmas -/

namespace specfem.mathematical_operators

/-- The unrolled accumulation loop of the specialized kernel computes the
same value as the `Finset` sum of the generic kernel. -/
theorem loop_sum_eq_sum (g : ℕ → type_real) (n : ℕ) :
    loop_sum g n = ∑ l ∈ Finset.range n, g l := by
  induction n with
  | zero => simp [loop_sum]
  | succ k ih => simp [loop_sum, Finset.sum_range_succ, ih]

/-- A contraction row that sums to zero annihilates the constant part of a
linear combination and acts linearly on the rest. -/
theorem linear_contraction (ngll : ℕ) (g u v : ℕ → type_real) (a b c : type_real)
    (hrow : ∑ l ∈ Finset.range ngll, g l = 0) :
    (∑ l ∈ Finset.range ngll, g l * (a * u l + b * v l + c)) =
      a * (∑ l ∈ Finset.range ngll, g l * u l) +
        b * (∑ l ∈ Finset.range ngll, g l * v l) := by
  calc (∑ l ∈ Finset.range ngll, g l * (a * u l + b * v l + c))
      = (∑ l ∈ Finset.range ngll, (a * (g l * u l) + b * (g l * v l) + c * g l)) := by
        apply Finset.sum_congr rfl; intro l _; ring
    _ = a * (∑ l ∈ Finset.range ngll, g l * u l) +
          b * (∑ l ∈ Finset.range ngll, g l * v l) +
          c * (∑ l ∈ Finset.range ngll, g l) := by
        simp [Finset.sum_add_distrib, Finset.mul_sum]
    _ = _ := by rw [hrow]; ring

/-- Pointwise reading of `add_contributions`: the value at a global index
is the old value plus the sum of the contributions of the element's
quadrature points that map to that index. -/
theorem add_contributions_apply (A : ContribArgs) (g : ℕ → type_real × type_real) (n : ℕ) :
    add_contributions A g n =
      g n + ((elem_points A.ngll).map fun p =>
        if n = A.s_iglob p.1 p.2 then point_contribution A p.1 p.2 else 0).sum := by
  unfold add_contributions
  generalize elem_points A.ngll = pts
  induction pts generalizing g with
  | nil => simp
  | cons p pts ih =>
      simp only [List.foldl_cons, List.map_cons, List.sum_cons, ih]
      by_cases h : n = A.s_iglob p.1 p.2 <;> simp [h, add_assoc]

end specfem.mathematical_operators

/-! ## Claim theorems -/

/-- C4: for every four partial derivative values, `compute_jacobian(xxi,
zxi, xgamma, zgamma)` returns exactly
`(dx/dxi)(dz/dgamma) - (dx/dgamma)(dz/dxi)`. -/
theorem jacobian.compute_jacobian_det_formula (xxi zxi xgamma zgamma : type_real) :
    jacobian.compute_jacobian xxi zxi xgamma zgamma = xxi * zgamma - xgamma * zxi :=
  rfl

/-- C6: for every element's control nodes and every reference point
`(xi, gamma)`, the `compute_locations`, `compute_partial_derivatives` and
`compute_jacobian` overloads taking the raw point and the overloads taking
the shape-function (derivative) matrix precomputed at that same point
return identical results. -/
theorem jacobian.dual_entry_points_agree (coorg : ℕ → ℕ → type_real) (ngnod : ℕ)
    (xi gamma : type_real) :
    jacobian.compute_locations coorg ngnod xi gamma =
        jacobian.compute_locations_shape coorg ngnod (jacobian.shape_functions xi gamma) ∧
      jacobian.compute_partial_derivatives coorg ngnod xi gamma =
        jacobian.compute_partial_derivatives_dershape coorg ngnod
          (jacobian.dershape_functions xi gamma) ∧
      jacobian.compute_jacobian_at coorg ngnod xi gamma =
        jacobian.compute_jacobian_dershape coorg ngnod
          (jacobian.dershape_functions xi gamma) :=
  ⟨rfl, rfl, rfl⟩

/-- C7: for every rectangular (affine) element of width `w` and height `h`,
`compute_jacobian` returns `w * h / 4` at every reference point, and in
particular the same value at every quadrature point of the element. -/
theorem jacobian.rect_element_jacobian (x0 z0 w h : type_real)
    (xi gamma xi' gamma' : type_real) :
    jacobian.compute_jacobian_at (jacobian.rect_coorg x0 z0 w h) 4 xi gamma = w * h / 4 ∧
      jacobian.compute_jacobian_at (jacobian.rect_coorg x0 z0 w h) 4 xi gamma =
        jacobian.compute_jacobian_at (jacobian.rect_coorg x0 z0 w h) 4 xi' gamma' := by
  have main : ∀ u v : type_real,
      jacobian.compute_jacobian_at (jacobian.rect_coorg x0 z0 w h) 4 u v = w * h / 4 := by
    intro u v
    simp [jacobian.compute_jacobian_at, jacobian.compute_partial_derivatives,
      jacobian.compute_jacobian, jacobian.rect_coorg, jacobian.dershape_functions,
      Finset.sum_range_succ]
    ring
  exact ⟨main xi gamma, by rw [main xi gamma, main xi' gamma']⟩

/-- C1: for every set of inputs and every quadrature-point count per
dimension, the generic runtime-sized `compute_gradients_2D` and the
compile-time-specialized `compute_gradients_2D<NGLL>` produce equal
derivative outputs at every quadrature point — exactly equal in this exact
model, hence in particular within `1e-10` relative tolerance (shown for
each of the four components). -/
theorem specfem.mathematical_operators.compute_gradients_2D_specialization_agrees
    (NGLL xz ispec : ℕ)
    (xix xiz gammax gammaz : ℕ → ℕ → ℕ → type_real)
    (s_hprime_xx s_hprime_zz field_x field_z : ℕ → ℕ → type_real) :
    specfem.mathematical_operators.compute_gradients_2D_ngll NGLL xz ispec
        xix xiz gammax gammaz s_hprime_xx s_hprime_zz field_x field_z =
      specfem.mathematical_operators.compute_gradients_2D NGLL ispec
        xix xiz gammax gammaz s_hprime_xx s_hprime_zz field_x field_z
        (xz / NGLL) (xz % NGLL) ∧
    (let sp := specfem.mathematical_operators.compute_gradients_2D_ngll NGLL xz ispec
        xix xiz gammax gammaz s_hprime_xx s_hprime_zz field_x field_z
     let gen := specfem.mathematical_operators.compute_gradients_2D NGLL ispec
        xix xiz gammax gammaz s_hprime_xx s_hprime_zz field_x field_z
        (xz / NGLL) (xz % NGLL)
     |sp.1 - gen.1| ≤ 1 / 10 ^ 10 * |gen.1| ∧
       |sp.2.1 - gen.2.1| ≤ 1 / 10 ^ 10 * |gen.2.1| ∧
       |sp.2.2.1 - gen.2.2.1| ≤ 1 / 10 ^ 10 * |gen.2.2.1| ∧
       |sp.2.2.2 - gen.2.2.2| ≤ 1 / 10 ^ 10 * |gen.2.2.2|) := by
  have heq : specfem.mathematical_operators.compute_gradients_2D_ngll NGLL xz ispec
        xix xiz gammax gammaz s_hprime_xx s_hprime_zz field_x field_z =
      specfem.mathematical_operators.compute_gradients_2D NGLL ispec
        xix xiz gammax gammaz s_hprime_xx s_hprime_zz field_x field_z
        (xz / NGLL) (xz % NGLL) := by
    simp [specfem.mathematical_operators.compute_gradients_2D_ngll,
      specfem.mathematical_operators.compute_gradients_2D,
      specfem.mathematical_operators.loop_sum_eq_sum]
  refine ⟨heq, ?_, ?_, ?_, ?_⟩ <;> rw [heq, sub_self, abs_zero] <;> positivity

/-- C2: construction of the geometric-factor table succeeds exactly when
`compute_jacobian` is strictly positive at every quadrature point of every
element, and on success the table stores the computed values unmodified (no
clamping); a non-positive value at any point makes construction fail
immediately with the fatal geometry error. -/
theorem specfem.assemble_jacobian_table_positivity (nspec ngll : ℕ)
    (pd : ℕ → ℕ → ℕ → type_real × type_real × type_real × type_real) :
    (specfem.assemble_jacobian_table nspec ngll pd =
        .ok (fun e iz ix => specfem.jacobian_of (pd e iz ix)) ↔
      ∀ e ∈ Finset.range nspec, ∀ iz ∈ Finset.range ngll, ∀ ix ∈ Finset.range ngll,
        0 < specfem.jacobian_of (pd e iz ix)) ∧
    ((∃ e ∈ Finset.range nspec, ∃ iz ∈ Finset.range ngll, ∃ ix ∈ Finset.range ngll,
        specfem.jacobian_of (pd e iz ix) ≤ 0) →
      specfem.assemble_jacobian_table nspec ngll pd =
        .error specfem.jacobian_fatal_msg) := by
  constructor
  · constructor
    · intro hok
      by_contra hneg
      unfold specfem.assemble_jacobian_table at hok
      rw [dif_neg hneg] at hok
      exact Except.noConfusion hok
    · intro hpos
      unfold specfem.assemble_jacobian_table
      rw [dif_pos hpos]
  · rintro ⟨e, he, iz, hiz, ix, hix, hle⟩
    unfold specfem.assemble_jacobian_table
    rw [dif_neg]
    intro hall
    exact absurd (hall e he iz hiz ix hix) (not_lt.mpr hle)

/-- C2 witness: a one-element, one-point mesh whose partial-derivative
quadruple `(-1, 0, 0, 1)` has Jacobian `-1`: construction fails with the
fatal geometry error. -/
theorem specfem.assemble_jacobian_table_positivity_witness :
    specfem.jacobian_of ((-1 : type_real), (0 : type_real), (0 : type_real), (1 : type_real)) ≤ 0 ∧
      specfem.assemble_jacobian_table 1 1 (fun _ _ _ => (-1, 0, 0, 1)) =
        .error specfem.jacobian_fatal_msg := by
  constructor
  · norm_num [specfem.jacobian_of, jacobian.compute_jacobian]
  · exact (specfem.assemble_jacobian_table_positivity 1 1 (fun _ _ _ => (-1, 0, 0, 1))).2
      ⟨0, by norm_num, 0, by norm_num, 0, by norm_num,
        by norm_num [specfem.jacobian_of, jacobian.compute_jacobian]⟩

/-- C3: for two elements `A` and `B` whose global index mappings share a
global degree-of-freedom id, running `add_contributions` for `A` then `B`
yields the same final value in `field_dot_dot` at the shared index as
running `B` then `A` — exactly, in this exact model, hence in particular
within summation-order rounding tolerance. -/
theorem specfem.mathematical_operators.add_contributions_order_invariant
    (A B : specfem.mathematical_operators.ContribArgs)
    (field_dot_dot : ℕ → type_real × type_real) (izA ixA izB ixB : ℕ)
    (_hshared : A.s_iglob izA ixA = B.s_iglob izB ixB) :
    specfem.mathematical_operators.add_contributions B
        (specfem.mathematical_operators.add_contributions A field_dot_dot)
        (A.s_iglob izA ixA) =
      specfem.mathematical_operators.add_contributions A
        (specfem.mathematical_operators.add_contributions B field_dot_dot)
        (A.s_iglob izA ixA) := by
  simp only [specfem.mathematical_operators.add_contributions_apply]
  abel

/-- C3 witness: two concrete one-point elements sharing global index `0`,
starting from the zero acceleration array. -/
theorem specfem.mathematical_operators.add_contributions_order_invariant_witness :
    specfem.mathematical_operators.cargsA.s_iglob 0 0 =
        specfem.mathematical_operators.cargsB.s_iglob 0 0 ∧
      specfem.mathematical_operators.add_contributions
          specfem.mathematical_operators.cargsB
          (specfem.mathematical_operators.add_contributions
            specfem.mathematical_operators.cargsA
            specfem.mathematical_operators.fdd0)
          (specfem.mathematical_operators.cargsA.s_iglob 0 0) =
        specfem.mathematical_operators.add_contributions
          specfem.mathematical_operators.cargsA
          (specfem.mathematical_operators.add_contributions
            specfem.mathematical_operators.cargsB
            specfem.mathematical_operators.fdd0)
          (specfem.mathematical_operators.cargsA.s_iglob 0 0) :=
  ⟨rfl, specfem.mathematical_operators.add_contributions_order_invariant
    specfem.mathematical_operators.cargsA specfem.mathematical_operators.cargsB
    specfem.mathematical_operators.fdd0 0 0 0 0 rfl⟩

/-- C5: on a non-degenerate element (positive discrete Jacobian, geometric
factors the inverses of the discrete mapping derivatives, derivative rows
summing to zero as every exact Lagrange derivative table does), the
gradient kernel recovers the coefficients `(a, b)` of a linear field
`a*x + b*z + c` exactly, at every quadrature point and for any element
distortion. -/
theorem specfem.mathematical_operators.compute_gradients_2D_linear_exactness
    (ngll : ℕ) (hpx hpz x z : ℕ → ℕ → type_real) (a b c : type_real) (iz ix : ℕ)
    (hrowx : ∑ l ∈ Finset.range ngll, hpx ix l = 0)
    (hrowz : ∑ l ∈ Finset.range ngll, hpz iz l = 0)
    (hJ : 0 < specfem.mathematical_operators.discrete_jacobian ngll hpx hpz x z iz ix) :
    specfem.mathematical_operators.compute_gradients_2D ngll 0
      (fun _ i j => specfem.mathematical_operators.xix_factor ngll hpx hpz x z i j)
      (fun _ i j => specfem.mathematical_operators.xiz_factor ngll hpx hpz x z i j)
      (fun _ i j => specfem.mathematical_operators.gammax_factor ngll hpx hpz x z i j)
      (fun _ i j => specfem.mathematical_operators.gammaz_factor ngll hpx hpz x z i j)
      hpx hpz
      (fun i j => a * x i j + b * z i j + c)
      (fun i j => a * x i j + b * z i j + c)
      iz ix = (a, b, a, b) := by
  have hJ' : specfem.mathematical_operators.discrete_jacobian ngll hpx hpz x z iz ix ≠ 0 :=
    ne_of_gt hJ
  have exi := specfem.mathematical_operators.linear_contraction ngll
    (fun l => hpx ix l) (fun l => x iz l) (fun l => z iz l) a b c hrowx
  have ega := specfem.mathematical_operators.linear_contraction ngll
    (fun l => hpz iz l) (fun l => x l ix) (fun l => z l ix) a b c hrowz
  unfold specfem.mathematical_operators.compute_gradients_2D
  simp only []
  rw [show (∑ l ∈ Finset.range ngll, hpx ix l * (a * x iz l + b * z iz l + c)) =
        a * specfem.mathematical_operators.dxi_contraction ngll hpx x iz ix +
          b * specfem.mathematical_operators.dxi_contraction ngll hpx z iz ix from exi,
      show (∑ l ∈ Finset.range ngll, hpz iz l * (a * x l ix + b * z l ix + c)) =
        a * specfem.mathematical_operators.dgamma_contraction ngll hpz x iz ix +
          b * specfem.mathematical_operators.dgamma_contraction ngll hpz z iz ix from ega]
  unfold specfem.mathematical_operators.xix_factor
    specfem.mathematical_operators.xiz_factor
    specfem.mathematical_operators.gammax_factor
    specfem.mathematical_operators.gammaz_factor
  unfold specfem.mathematical_operators.discrete_jacobian at hJ' ⊢
  generalize specfem.mathematical_operators.dxi_contraction ngll hpx x iz ix = Xxi at *
  generalize specfem.mathematical_operators.dxi_contraction ngll hpx z iz ix = Zxi at *
  generalize specfem.mathematical_operators.dgamma_contraction ngll hpz x iz ix = Xga at *
  generalize specfem.mathematical_operators.dgamma_contraction ngll hpz z iz ix = Zga at *
  refine Prod.ext ?_ (Prod.ext ?_ (Prod.ext ?_ ?_)) <;> simp only [] <;>
    field_simp <;> ring

/-- C5 witness: the 2x2 exact linear-basis fixture (`x = xi`, `z = gamma`,
derivative rows `(-1/2, 1/2)`) with the field `2*x + 3*z + 5`: the kernel
returns `(2, 3, 2, 3)` at the point `(0, 0)`. -/
theorem specfem.mathematical_operators.compute_gradients_2D_linear_exactness_witness :
    (∑ l ∈ Finset.range 2, specfem.mathematical_operators.hprime_lin 0 l = 0) ∧
      (0 < specfem.mathematical_operators.discrete_jacobian 2
        specfem.mathematical_operators.hprime_lin
        specfem.mathematical_operators.hprime_lin
        specfem.mathematical_operators.coord_xi
        specfem.mathematical_operators.coord_ga 0 0) ∧
      specfem.mathematical_operators.compute_gradients_2D 2 0
        (fun _ i j => specfem.mathematical_operators.xix_factor 2
          specfem.mathematical_operators.hprime_lin
          specfem.mathematical_operators.hprime_lin
          specfem.mathematical_operators.coord_xi
          specfem.mathematical_operators.coord_ga i j)
        (fun _ i j => specfem.mathematical_operators.xiz_factor 2
          specfem.mathematical_operators.hprime_lin
          specfem.mathematical_operators.hprime_lin
          specfem.mathematical_operators.coord_xi
          specfem.mathematical_operators.coord_ga i j)
        (fun _ i j => specfem.mathematical_operators.gammax_factor 2
          specfem.mathematical_operators.hprime_lin
          specfem.mathematical_operators.hprime_lin
          specfem.mathematical_operators.coord_xi
          specfem.mathematical_operators.coord_ga i j)
        (fun _ i j => specfem.mathematical_operators.gammaz_factor 2
          specfem.mathematical_operators.hprime_lin
          specfem.mathematical_operators.hprime_lin
          specfem.mathematical_operators.coord_xi
          specfem.mathematical_operators.coord_ga i j)
        specfem.mathematical_operators.hprime_lin
        specfem.mathematical_operators.hprime_lin
        (fun i j => 2 * specfem.mathematical_operators.coord_xi i j +
          3 * specfem.mathematical_operators.coord_ga i j + 5)
        (fun i j => 2 * specfem.mathematical_operators.coord_xi i j +
          3 * specfem.mathematical_operators.coord_ga i j + 5)
        0 0 = (2, 3, 2, 3) := by
  refine ⟨?_, ?_, ?_⟩
  · norm_num [specfem.mathematical_operators.hprime_lin, Finset.sum_range_succ]
  · norm_num [specfem.mathematical_operators.discrete_jacobian,
      specfem.mathematical_operators.dxi_contraction,
      specfem.mathematical_operators.dgamma_contraction,
      specfem.mathematical_operators.hprime_lin,
      specfem.mathematical_operators.coord_xi,
      specfem.mathematical_operators.coord_ga, Finset.sum_range_succ]
  · exact specfem.mathematical_operators.compute_gradients_2D_linear_exactness 2
      specfem.mathematical_operators.hprime_lin
      specfem.mathematical_operators.hprime_lin
      specfem.mathematical_operators.coord_xi
      specfem.mathematical_operators.coord_ga 2 3 5 0 0
      (by norm_num [specfem.mathematical_operators.hprime_lin, Finset.sum_range_succ])
      (by norm_num [specfem.mathematical_operators.hprime_lin, Finset.sum_range_succ])
      (by norm_num [specfem.mathematical_operators.discrete_jacobian,
        specfem.mathematical_operators.dxi_contraction,
        specfem.mathematical_operators.dgamma_contraction,
        specfem.mathematical_operators.hprime_lin,
        specfem.mathematical_operators.coord_xi,
        specfem.mathematical_operators.coord_ga, Finset.sum_range_succ])

/-- C8: the constructor reads the thirteen database records in their fixed
order and a read failure propagates with no partial mesh; but the claim
that any unconsumed trailing data makes construction throw fails on the
code: the completeness check `stream.get() && !stream.eof()` short-circuits
when the first trailing byte is NUL, so a stream with one unconsumed zero
byte after the axial-elements record constructs successfully. -/
theorem specfem.mesh_construct_trailing_nul_accepted :
    specfem.mesh_construct (some (List.replicate 13 1 ++ [0]))
        specfem.one_byte_readers =
      .ok specfem.record_order := rfl

/-- C9: for every filename that cannot be opened, the constructor throws
`"Could not open database file"` before any record is read (the result does
not depend on the readers at all), and no mesh is produced. -/
theorem specfem.mesh_construct_open_failure (readers : specfem.Readers) :
    specfem.mesh_construct none readers = .error specfem.open_fail_msg := rfl

/-- C10: an `add_contributions` call mutates only the global acceleration
array: the quadrature weights, the weighted derivative matrices, the global
index mapping and the four stress integrands are all unchanged, and the
acceleration array changes only by the kernel's accumulation. -/
theorem specfem.mathematical_operators.add_contributions_frame
    (s : specfem.mathematical_operators.KernelState) :
    (specfem.mathematical_operators.add_contributions_state s).args.wxgll = s.args.wxgll ∧
    (specfem.mathematical_operators.add_contributions_state s).args.wzgll = s.args.wzgll ∧
    (specfem.mathematical_operators.add_contributions_state s).args.s_hprimewgll_xx =
      s.args.s_hprimewgll_xx ∧
    (specfem.mathematical_operators.add_contributions_state s).args.s_hprimewgll_zz =
      s.args.s_hprimewgll_zz ∧
    (specfem.mathematical_operators.add_contributions_state s).args.s_iglob = s.args.s_iglob ∧
    (specfem.mathematical_operators.add_contributions_state s).args.stress_integrand_1 =
      s.args.stress_integrand_1 ∧
    (specfem.mathematical_operators.add_contributions_state s).args.stress_integrand_2 =
      s.args.stress_integrand_2 ∧
    (specfem.mathematical_operators.add_contributions_state s).args.stress_integrand_3 =
      s.args.stress_integrand_3 ∧
    (specfem.mathematical_operators.add_contributions_state s).args.stress_integrand_4 =
      s.args.stress_integrand_4 ∧
    (specfem.mathematical_operators.add_contributions_state s).field_dot_dot =
      specfem.mathematical_operators.add_contributions s.args s.field_dot_dot :=
  ⟨rfl, rfl, rfl, rfl, rfl, rfl, rfl, rfl, rfl, rfl⟩
